import Mathlib

/-!
Verification of the brx_sync inventory synchronization service against its
specification.  Each subsystem touched by the claims is shallowly embedded:

* `app/services/adaptive_rate_limiter.py` — per-user token bucket with an
  adaptive capacity factor, stored in Redis (`LimiterState`, `check_and_consume`,
  `record_success`, `record_429_response`).
* `app/services/circuit_breaker.py` — the CardTrader circuit breaker
  (`BreakerState`, `record_failure`, `record_success`, `should_attempt_reset`,
  the breaker gate of `call`).  Redis keys with TTLs are modelled as optional
  values paired with an absolute expiry instant.
* `app/services/webhook_processor.py` — order webhook quantity adjustments.
* `app/tasks/sync_tasks.py` — `_process_products_chunk` of the bulk sync.
* `app/api/v1/routes/sync.py` — `purchase_item`, `receive_webhook`,
  `get_task_status`.

Python floats are idealized as rationals; machine integers as `Int`/`Nat`
(quantities in the source never approach overflow).  Redis round trips are
modelled as pure state transitions; a Lua `EVAL` is a single transition, which
is how the source obtains atomicity.
-/

namespace BrxSync

/-! ### Adaptive rate limiter (`app/services/adaptive_rate_limiter.py`)

State per user: the token bucket hash (`tokens`, `refill_time`), the adaptive
factor key (absent means the default 1.0) and the list of 429 timestamps
(most recent first, as produced by `LPUSH`). -/

structure Bucket where
  tokens : Int
  refillTime : Rat
  deriving Repr, DecidableEq

structure LimiterState where
  bucket : Option Bucket
  factor : Option Rat
  ts429 : List Rat
  deriving Repr, DecidableEq

/-- Constructor defaults from `AdaptiveRateLimiter.__init__`. -/
def min_factor : Rat := 0.5
def max_factor : Rat := 1.5
def reduction_factor : Rat := 0.9
def increase_factor : Rat := 1.01

/-- Python `int(x)` truncates toward zero. -/
def pyInt (x : Rat) : Int := if 0 ≤ x then ⌊x⌋ else ⌈x⌉

/-- Source `_get_adaptive_factor`: a missing key defaults to 1.0. -/
def get_adaptive_factor (s : LimiterState) : Rat :=
  (s.factor).getD 1

/-- Source `_get_recent_429_count`: timestamps strictly newer than
`now - window`. -/
def get_recent_429_count (s : LimiterState) (now window : Rat) : Nat :=
  (s.ts429.filter (fun t => decide (t > now - window))).length

/-- Result triple returned by the Lua script inside `check_and_consume`:
allowed flag, wait seconds, remaining tokens. -/
structure LuaResult where
  allowed : Bool
  wait : Rat
  remaining : Int
  deriving Repr, DecidableEq

/-- The Lua script of `check_and_consume`, as one atomic transition on the
bucket: initialize the bucket when the hash is missing, refill when
`now >= refill_time`, then either deduct (persisting the new bucket) or
report the wait without writing anything back. -/
def luaCheckAndConsume (maxTokens : Int) (windowSeconds now : Rat)
    (tokensToConsume : Int) (bucket : Option Bucket) :
    LuaResult × Option Bucket :=
  let refilled : Int × Rat :=
    match bucket with
    | none => (maxTokens, now + windowSeconds)
    | some b =>
        if now ≥ b.refillTime then (maxTokens, now + windowSeconds)
        else (b.tokens, b.refillTime)
  let currentTokens := refilled.1
  let refillTime := refilled.2
  if currentTokens ≥ tokensToConsume then
    let remaining := currentTokens - tokensToConsume
    (⟨true, 0, remaining⟩, some ⟨remaining, refillTime⟩)
  else
    (⟨false, max 0 (refillTime - now), currentTokens⟩, bucket)

/-- Which Redis round trips fail, for modelling `check_and_consume`'s
exception handling: the adaptive-factor `GET` executes before the `try`
block, the Lua `EVAL` inside it. -/
structure RedisFailure where
  factorGetFails : Bool
  evalFails : Bool
  deriving Repr, DecidableEq

inductive KVError where
  | connectionError
  deriving Repr, DecidableEq

/-- Source `check_and_consume(user_id, tokens)`: read the adaptive factor
(outside the `try`), compute `effective_limit = int(base * factor)`, run the
Lua script, convert a zero wait to `None`; any exception inside the `try`
returns `(True, None)` (fail open). -/
def check_and_consume (fail : RedisFailure) (s : LimiterState)
    (base_requests : Int) (window_seconds now : Rat) (tokens : Int) :
    Except KVError ((Bool × Option Rat) × LimiterState) :=
  if fail.factorGetFails then
    Except.error KVError.connectionError
  else
    let adaptive_factor := get_adaptive_factor s
    let effective_limit := pyInt ((base_requests : Rat) * adaptive_factor)
    if fail.evalFails then
      Except.ok ((true, none), s)
    else
      let r := luaCheckAndConsume effective_limit window_seconds now tokens s.bucket
      let wait_seconds := if r.1.wait > 0 then some r.1.wait else none
      Except.ok ((r.1.allowed, wait_seconds), { s with bucket := r.2 })

/-- Source `record_429_response`: push the timestamp (list trimmed to indices
0..100, hence 101 entries) and reduce the factor, clamped below at
`min_factor`. -/
def record_429_response (s : LimiterState) (now : Rat) : LimiterState :=
  let ts := (now :: s.ts429).take 101
  let current_factor := get_adaptive_factor s
  let new_factor := max min_factor (current_factor * reduction_factor)
  { s with ts429 := ts, factor := some new_factor }

/-- Source `record_success`: raise the factor only when there was no 429 in
the last 300 seconds AND the current factor is below 1.0. -/
def limiter_record_success (s : LimiterState) (now : Rat) : LimiterState :=
  let recent_429s := get_recent_429_count s now 300
  if recent_429s = 0 then
    let current_factor := get_adaptive_factor s
    if current_factor < 1 then
      { s with factor := some (min max_factor (current_factor * increase_factor)) }
    else s
  else s

/-! ### Circuit breaker (`app/services/circuit_breaker.py`)

Redis keys carrying a TTL are modelled as `Option (TimedVal α)`: the value
together with the absolute instant at which the key expires.  A read at time
`now` sees the value only while `now < expiry`. -/

structure TimedVal (α : Type) where
  val : α
  expiry : Rat
  deriving Repr, DecidableEq

/-- Read a Redis key with TTL at wall-clock `now`. -/
def readKey {α : Type} (now : Rat) (k : Option (TimedVal α)) : Option α :=
  k.bind (fun t => if now < t.expiry then some t.val else none)

inductive CircuitState where
  | CLOSED
  | OPEN
  | HALF_OPEN
  deriving Repr, DecidableEq

/-- Constructor defaults of `CardTraderCircuitBreaker.__init__`. -/
def failure_threshold : Int := 5
def success_threshold : Int := 2
def breaker_timeout : Rat := 60
def half_open_timeout : Rat := 30

/-- Redis state of the breaker: the `:state`, `:failures`, `:opened_at` and
`:successes` keys (the failure-timestamp list and error-type hash only feed
logging and statistics). -/
structure BreakerState where
  state : Option (TimedVal CircuitState)
  failures : Option (TimedVal Int)
  openedAt : Option (TimedVal Rat)
  successes : Option (TimedVal Int)
  failureTimestamps : List Rat
  deriving Repr, DecidableEq

/-- Source `get_state`: a missing key reads as CLOSED. -/
def get_state (b : BreakerState) (now : Rat) : CircuitState :=
  (readKey now b.state).getD CircuitState.CLOSED

/-- Source `set_state`: `SETEX` with TTL `timeout * 2`. -/
def set_state (b : BreakerState) (now : Rat) (st : CircuitState) : BreakerState :=
  { b with state := some ⟨st, now + breaker_timeout * 2⟩ }

/-- Source `record_failure`: `INCR` the failure counter (missing key counts
as 0), reset its TTL to `timeout`, push the timestamp, and when the counter
reaches `failure_threshold` set the state to OPEN and `SETEX` `opened_at`
with TTL `timeout`. -/
def record_failure (b : BreakerState) (now : Rat) : BreakerState :=
  let failures := (readKey now b.failures).getD 0 + 1
  let b := { b with
    failures := some ⟨failures, now + breaker_timeout⟩,
    failureTimestamps := (now :: b.failureTimestamps).take 101 }
  if failures ≥ failure_threshold then
    let b := set_state b now CircuitState.OPEN
    { b with openedAt := some ⟨now, now + breaker_timeout⟩ }
  else b

/-- Source `record_success`: unconditionally delete the failure counter;
in HALF_OPEN count successes and close at `success_threshold`; in CLOSED
delete the (already deleted) counter again. -/
def breaker_record_success (b : BreakerState) (now : Rat) : BreakerState :=
  let b := { b with failures := none }
  match get_state b now with
  | CircuitState.HALF_OPEN =>
      let successes := (readKey now b.successes).getD 0 + 1
      let b := { b with successes := some ⟨successes, now + half_open_timeout⟩ }
      if successes ≥ success_threshold then
        let b := set_state b now CircuitState.CLOSED
        { b with successes := none }
      else b
  | CircuitState.CLOSED => { b with failures := none }
  | CircuitState.OPEN => b

/-- Source `should_attempt_reset`: only meaningful in OPEN; a missing
`opened_at` key allows the reset, otherwise require
`now - opened_at >= timeout`. -/
def should_attempt_reset (b : BreakerState) (now : Rat) : Bool :=
  if get_state b now ≠ CircuitState.OPEN then false
  else
    match readKey now b.openedAt with
    | none => true
    | some opened_at => decide (now - opened_at ≥ breaker_timeout)

/-- The gate at the top of `call`: in OPEN, either move to HALF_OPEN
(clearing the success counter) when `should_attempt_reset`, or raise
`CircuitBreakerOpenError`.  Any other state passes through. -/
inductive BreakerOpenError where
  | circuitBreakerOpenError
  deriving Repr, DecidableEq

def call_gate (b : BreakerState) (now : Rat) : Except BreakerOpenError BreakerState :=
  if get_state b now = CircuitState.OPEN then
    if should_attempt_reset b now then
      Except.ok { set_state b now CircuitState.HALF_OPEN with successes := none }
    else
      Except.error BreakerOpenError.circuitBreakerOpenError
  else Except.ok b

/-- Iterated `record_failure`, all at the same instant (used to express
"j consecutive failures with no intervening success"). -/
def iterate_failures (now : Rat) (b : BreakerState) : Nat → BreakerState
  | 0 => b
  | Nat.succ j => record_failure (iterate_failures now b j) now

/-! ### Webhook processor (`app/services/webhook_processor.py`)

The per-user inventory is modelled as a map from the `external_stock_id`
(CardTrader product id, an integer in exports, stored as its string form)
to the row's quantity; `none` means no matching row. -/

abbrev Inv := Nat → Option Int

structure OrderItem where
  product_id : Option Nat
  quantity : Int
  deriving Repr, DecidableEq

structure Order where
  state : String
  order_items : List OrderItem
  deriving Repr, DecidableEq

/-- The skip test `if not product_id or quantity <= 0: continue` shared by
`_handle_order_create` and `_restore_order_quantities`: `product_id` must be
truthy (present and nonzero) and the quantity positive.  Returns the product
id an item acts on, or `none` when it is skipped. -/
def orderItemKey (it : OrderItem) : Option Nat :=
  match it.product_id with
  | none => none
  | some pid => if pid = 0 ∨ it.quantity ≤ 0 then none else some pid

/-- One loop iteration of `_handle_order_create`: find the row by
`external_stock_id`, then `quantity = max(0, quantity - item_qty)`.
A missing row is recorded in `errors` and changes nothing. -/
def create_step (inv : Inv) (it : OrderItem) : Inv :=
  match orderItemKey it with
  | none => inv
  | some pid =>
      match inv pid with
      | none => inv
      | some q => Function.update inv pid (some (max 0 (q - it.quantity)))

/-- One loop iteration of `_restore_order_quantities`:
`quantity = quantity + item_qty` on the matching row. -/
def restore_step (inv : Inv) (it : OrderItem) : Inv :=
  match orderItemKey it with
  | none => inv
  | some pid =>
      match inv pid with
      | none => inv
      | some q => Function.update inv pid (some (q + it.quantity))

/-- Source `_handle_order_create`: only orders in state `paid` decrement
quantities; any other state is ignored. -/
def handle_order_create (inv : Inv) (order : Order) : Inv :=
  if order.state = "paid" then order.order_items.foldl create_step inv else inv

/-- Source `_restore_order_quantities` over all order items. -/
def restore_order_quantities (inv : Inv) (order : Order) : Inv :=
  order.order_items.foldl restore_step inv

/-- Source `_handle_order_destroy`: always restores quantities. -/
def handle_order_destroy (inv : Inv) (order : Order) : Inv :=
  restore_order_quantities inv order

/-! ### Bulk-sync chunk (`app/tasks/sync_tasks.py`, `_process_products_chunk`)

The database is modelled as the set of existing
`(blueprint_id, external_stock_id)` keys of the user's rows (`user_id` is
fixed throughout one call).  The blueprint mapper is an oracle
`Nat → Option (print_id × catalog_table)`. -/

structure ExportProduct where
  blueprint_id : Option Nat
  id : Option Nat
  quantity : Int
  price_cents : Int
  deriving Repr, DecidableEq

/-- Python truthiness of an optional integer field (`None` and `0` are
falsy). -/
def truthy : Option Nat → Bool
  | none => false
  | some n => decide (n ≠ 0)

/-- The `(user_id, blueprint_id, external_stock_id)` probe key, with the
fixed user projected away (`external_stock_id` is `str(product_id)`, and
`Nat.repr` is injective, so the integer id stands in for its string). -/
def productKey (p : ExportProduct) : Nat × Nat :=
  (p.blueprint_id.getD 0, p.id.getD 0)

structure ChunkResult where
  processed : Nat
  created : Nat
  updated : Nat
  skipped : Nat
  deriving Repr, DecidableEq

/-- Step 1 of `_process_products_chunk`: keep products with truthy
`blueprint_id` and `id`. -/
def valid_products (products : List ExportProduct) : List ExportProduct :=
  products.filter (fun p => truthy p.blueprint_id && truthy p.id)

/-- Step 3 of `_process_products_chunk`: keep products whose blueprint maps
to a catalog table other than the deny-listed `op_prints`. -/
def products_to_process (products : List ExportProduct)
    (bmap : Nat → Option (Nat × String)) : List ExportProduct :=
  (valid_products products).filter (fun p =>
    match bmap (p.blueprint_id.getD 0) with
    | some m => decide (m.2 ≠ "op_prints")
    | none => false)

/-- Source `_process_products_chunk`: drop products with falsy
`blueprint_id` or `id`; drop products without a mapping or mapped to the
deny-listed `op_prints` table; probe existing `(blueprint, external_stock)`
keys in one query; inserts are the misses, updates the hits.  Returns the
counters and the key set after the chunk commits. -/
def process_products_chunk (db : List (Nat × Nat)) (products : List ExportProduct)
    (bmap : Nat → Option (Nat × String)) : ChunkResult × List (Nat × Nat) :=
  let skipped₁ := products.length - (valid_products products).length
  if (valid_products products).isEmpty then
    (⟨products.length, 0, 0, skipped₁⟩, db)
  else
    let skipped := skipped₁ +
      ((valid_products products).length - (products_to_process products bmap).length)
    if (products_to_process products bmap).isEmpty then
      (⟨products.length, 0, 0, skipped⟩, db)
    else
      let items_to_insert := (products_to_process products bmap).filter
        (fun p => !decide (productKey p ∈ db))
      let items_to_update := (products_to_process products bmap).filter
        (fun p => decide (productKey p ∈ db))
      (⟨products.length, items_to_insert.length, items_to_update.length, skipped⟩,
        db ++ items_to_insert.map productKey)

/-! ### Purchase saga (`app/api/v1/routes/sync.py`, `purchase_item`)

Inputs: the locked local quantity `q0`, the optional `external_stock_id`,
the CardTrader quantity `r0` returned by `check_product_availability`, the
requested quantity `req`, and whether the step-6 local commit fails (the
compensation path).  The outcome records the response fields, the final
local row quantity, the remote product state (`none` once deleted) and the
remote mutations issued. -/

inductive RemoteCall where
  | incrementCall (product_id : Nat) (delta : Int)
  | deleteCall (product_id : Nat)
  deriving Repr, DecidableEq

structure PurchaseOutcome where
  status : String
  quantity_before : Int
  quantity_after : Int
  quantity_purchased : Int
  local_quantity : Int
  remote_quantity : Option Int
  remote_calls : List RemoteCall
  deriving Repr, DecidableEq

def purchase_item (q0 : Int) (external_stock_id : Option Nat) (r0 req : Int)
    (dbCommitFails : Bool) : PurchaseOutcome :=
  if q0 < req then
    -- Step 1 failed: best-effort refresh of the local row from CardTrader
    match external_stock_id with
    | some _ => ⟨"error", q0, r0, 0, r0, some r0, []⟩
    | none => ⟨"error", q0, q0, 0, q0, some r0, []⟩
  else
    match external_stock_id with
    | none => ⟨"error", q0, q0, 0, q0, some r0, []⟩
    | some pid =>
      if r0 < req then
        -- insufficient on CardTrader: refresh local row to the remote value
        ⟨"error", q0, r0, 0, r0, some r0, []⟩
      else
        let new_cardtrader_quantity := r0 - req
        if dbCommitFails then
          -- Step 6 failed after the remote mutation: compensate
          if new_cardtrader_quantity > 0 then
            ⟨"error", q0, q0, 0, q0, some r0,
              [RemoteCall.incrementCall pid (-req), RemoteCall.incrementCall pid req]⟩
          else
            -- remote product was deleted: irrecoverable, alert only
            ⟨"error", q0, q0, 0, q0, none, [RemoteCall.deleteCall pid]⟩
        else
          if new_cardtrader_quantity > 0 then
            ⟨"success", q0, q0 - req, req, q0 - req, some new_cardtrader_quantity,
              [RemoteCall.incrementCall pid (-req)]⟩
          else
            ⟨"success", q0, q0 - req, req, q0 - req, none, [RemoteCall.deleteCall pid]⟩

/-! ### Webhook ingress (`app/api/v1/routes/sync.py`, `receive_webhook`,
and `app/core/webhook_validator.py`)

Base64 decoding and HMAC-SHA-256 are external library primitives, passed as
an oracle; bodies and digests are byte lists. -/

structure CryptoPrims where
  b64decode : String → Option (List Nat)
  hmacSha256 : String → List Nat → List Nat

inductive WebhookError where
  | missingSignatureHeader
  | missingSharedSecret
  | invalidSignatureFormat
  | invalidSignature
  deriving Repr, DecidableEq

/-- Source `validate_webhook_signature`: empty header or secret raise,
undecodable signatures raise, otherwise compare the decoded signature with
the computed HMAC (constant-time in the source) and return the verdict. -/
def validate_webhook_signature (crypto : CryptoPrims) (body : List Nat)
    (signature_header shared_secret : String) : Except WebhookError Bool :=
  if signature_header = "" then Except.error WebhookError.missingSignatureHeader
  else if shared_secret = "" then Except.error WebhookError.missingSharedSecret
  else
    match crypto.b64decode signature_header with
    | none => Except.error WebhookError.invalidSignatureFormat
    | some expected_signature =>
        let computed_signature := crypto.hmacSha256 shared_secret body
        if expected_signature = computed_signature then Except.ok true
        else Except.ok false

/-- Source `verify_webhook`: raise on an invalid signature. -/
def verify_webhook (crypto : CryptoPrims) (body : List Nat)
    (signature_header shared_secret : String) : Except WebhookError Unit :=
  match validate_webhook_signature crypto body signature_header shared_secret with
  | Except.ok true => Except.ok ()
  | Except.ok false => Except.error WebhookError.invalidSignature
  | Except.error e => Except.error e

structure WebhookResponse where
  status : String
  enqueued : Bool
  signature_valid : Option Bool
  deriving Repr, DecidableEq

/-- Source `receive_webhook` (per-user endpoint): unknown users get an error
body (still HTTP 200) and nothing is enqueued.  For a known user, when a
secret is configured and a signature header is present, `verify_webhook`
runs; a `WebhookValidationError` is only logged.  In every such case the
payload is then enqueued via `process_webhook_notification.delay` and the
endpoint answers `accepted`. -/
def receive_webhook (settings : Option (Option String)) (crypto : CryptoPrims)
    (body : List Nat) (signature_header : String) : WebhookResponse :=
  match settings with
  | none => ⟨"error", false, none⟩
  | some webhook_secret =>
      let shared_secret := webhook_secret.getD ""
      let signature_valid : Option Bool :=
        if shared_secret ≠ "" ∧ signature_header ≠ "" then
          match verify_webhook crypto body signature_header shared_secret with
          | Except.ok _ => some true
          | Except.error _ => some false
        else none
      ⟨"accepted", true, signature_valid⟩

/-! ### Task-status endpoint (`app/api/v1/routes/sync.py`, `get_task_status`) -/

structure SyncOpRow where
  user_id : Nat
  deriving Repr, DecidableEq

structure TaskStatusResponse where
  task_id : String
  status : String
  deriving Repr, DecidableEq

/-- Source `get_task_status`: an unparsable token id is a 400; a missing
`SyncOperation` row is a 403 for every caller; an owner mismatch is a 403;
only then is the Celery state consulted and returned. -/
def get_task_status (task_id : String) (user_id_from_token : Option Nat)
    (sync_op : Option SyncOpRow) (celery_state : String) :
    Except Nat TaskStatusResponse :=
  match user_id_from_token with
  | none => Except.error 400
  | some user_uuid =>
      match sync_op with
      | none => Except.error 403
      | some op =>
          if op.user_id ≠ user_uuid then Except.error 403
          else Except.ok ⟨task_id, celery_state⟩

/-! ## Theorems -/

/-- C1: for every successful purchase of `req` units of an item with local
quantity `q0` and CardTrader quantity `r0`, with `0 < req ≤ min(q0, r0)`:
the local row ends at `q0 - req`, and the remote side is decremented by
`req` — via `increment(product_id, -req)` when `r0 - req > 0`, via
`delete(product_id)` when `r0 - req = 0`. -/
theorem purchase_conservation (q0 r0 req : Int) (pid : Nat)
    (_hpos : 0 < req) (hq : req ≤ q0) (hr : req ≤ r0) :
    (purchase_item q0 (some pid) r0 req false).status = "success" ∧
    (purchase_item q0 (some pid) r0 req false).local_quantity = q0 - req ∧
    (purchase_item q0 (some pid) r0 req false).quantity_after = q0 - req ∧
    (purchase_item q0 (some pid) r0 req false).remote_quantity =
      (if r0 - req > 0 then some (r0 - req) else none) ∧
    (purchase_item q0 (some pid) r0 req false).remote_calls =
      (if r0 - req > 0 then [RemoteCall.incrementCall pid (-req)]
       else [RemoteCall.deleteCall pid]) := by
  have h1 : ¬ (q0 < req) := not_lt.mpr hq
  have h2 : ¬ (r0 < req) := not_lt.mpr hr
  simp only [purchase_item, if_neg h1, if_neg h2, Bool.false_eq_true, if_false]
  split_ifs <;> simp_all

/-- Witness for C1 at `q0 = 5`, `r0 = 3`, `req = 3`: the remote quantity
hits zero, so the product is deleted remotely. -/
theorem purchase_conservation_witness :
    (purchase_item 5 (some 7) 3 3 false).status = "success" ∧
    (purchase_item 5 (some 7) 3 3 false).local_quantity = 5 - 3 ∧
    (purchase_item 5 (some 7) 3 3 false).quantity_after = 5 - 3 ∧
    (purchase_item 5 (some 7) 3 3 false).remote_quantity =
      (if (3:Int) - 3 > 0 then some ((3:Int) - 3) else none) ∧
    (purchase_item 5 (some 7) 3 3 false).remote_calls =
      (if (3:Int) - 3 > 0 then [RemoteCall.incrementCall 7 (-3)]
       else [RemoteCall.deleteCall 7]) :=
  purchase_conservation 5 3 3 7 (by decide) (by decide) (by decide)

/-- C10: the task-status endpoint fails closed — a task id with no
`SyncOperation` row yields 403 for every authenticated caller, and a
success response exists exactly when the row exists and belongs to the
caller (in which case the Celery state is returned). -/
theorem task_status_fails_closed (task_id : String) (uid : Nat)
    (row : Option SyncOpRow) (celery_state : String) :
    get_task_status task_id (some uid) none celery_state = Except.error 403 ∧
    ((∃ resp, get_task_status task_id (some uid) row celery_state = Except.ok resp) ↔
      row = some ⟨uid⟩) ∧
    get_task_status task_id (some uid) (some ⟨uid⟩) celery_state =
      Except.ok ⟨task_id, celery_state⟩ := by
  refine ⟨rfl, ?_, by simp [get_task_status]⟩
  cases row with
  | none => simp [get_task_status]
  | some op =>
      cases op with
      | mk owner =>
          by_cases h : owner = uid <;>
            simp [get_task_status, h]

/-- C8 (code bug evidence): a KV-store failure on the adaptive-factor
`GET` — which executes before the `try` block of `check_and_consume` —
propagates out of the limiter instead of failing open with
`(True, None)`. -/
theorem fail_open_gap :
    check_and_consume ⟨true, false⟩ ⟨none, none, []⟩ 200 10 0 1 =
      Except.error KVError.connectionError ∧
    check_and_consume ⟨false, true⟩ ⟨none, none, []⟩ 200 10 0 1 =
      Except.ok ((true, none), ⟨none, none, []⟩) :=
  ⟨rfl, rfl⟩

/-- C2 counterexample: a webhook for a user with secret `topsecret`, whose
`Signature` header decodes to a digest produced with a different secret.
Validation fails (`signature_valid = some false`), the endpoint still
answers `accepted` — but the payload IS enqueued, contradicting the claim
that it is not processed. -/
theorem webhook_bad_signature_not_enqueued_cex :
    (receive_webhook (some (some "topsecret"))
        ⟨fun h => if h = "c2ln" then some [9, 9] else none,
         fun k _ => if k = "topsecret" then [1, 2] else [9, 9]⟩
        [0] "c2ln").signature_valid = some false ∧
    (receive_webhook (some (some "topsecret"))
        ⟨fun h => if h = "c2ln" then some [9, 9] else none,
         fun k _ => if k = "topsecret" then [1, 2] else [9, 9]⟩
        [0] "c2ln").status = "accepted" ∧
    (receive_webhook (some (some "topsecret"))
        ⟨fun h => if h = "c2ln" then some [9, 9] else none,
         fun k _ => if k = "topsecret" then [1, 2] else [9, 9]⟩
        [0] "c2ln").enqueued = true :=
  ⟨rfl, rfl, rfl⟩

/-- C2 amended: for every webhook POST whose signature fails validation
against the stored secret, the endpoint responds 2xx AND the payload is
still enqueued for background processing; the failure is only logged. -/
theorem webhook_bad_signature_still_enqueued (secret : String)
    (crypto : CryptoPrims) (body : List Nat) (header : String)
    (hfail : verify_webhook crypto body header secret =
      Except.error WebhookError.invalidSignature) :
    receive_webhook (some (some secret)) crypto body header =
      ⟨"accepted", true, some false⟩ := by
  have hh : header ≠ "" := by
    intro h
    rw [h] at hfail
    simp [verify_webhook, validate_webhook_signature] at hfail
  have hs : secret ≠ "" := by
    intro h
    rw [h] at hfail
    simp [verify_webhook, validate_webhook_signature, hh] at hfail
  simp [receive_webhook, hs, hh, hfail]

/-- Witness for the amended C2 at concrete crypto primitives and inputs. -/
theorem webhook_bad_signature_still_enqueued_witness :
    receive_webhook (some (some "topsecret"))
      ⟨fun h => if h = "c2lt" then some [9] else none,
       fun k _ => if k = "topsecret" then [1] else [9]⟩
      [0, 1] "c2lt" = ⟨"accepted", true, some false⟩ :=
  webhook_bad_signature_still_enqueued "topsecret" _ [0, 1] "c2lt" rfl

/-- C3 counterexample: at the default factor 1.0 and with no recorded 429s,
`record_success` leaves the factor at 1.0, not at
`min(1.5, 1.0 * 1.01) = 1.01` as claimed. -/
theorem success_growth_cex :
    get_adaptive_factor (limiter_record_success ⟨none, none, []⟩ 0) = 1 ∧
    min max_factor ((1 : ℚ) * increase_factor) = 1.01 ∧
    (1 : ℚ) ≠ 1.01 := by
  refine ⟨rfl, ?_, by norm_num⟩
  norm_num [max_factor, increase_factor]

/-- C3 amended: on a success with no 429 in the last 300 s, the factor is
updated to `min(1.5, f * 1.01)` only when additionally `f < 1.0`; at
`f ≥ 1.0` the state is left unchanged, so sustained success never raises
the factor to 1.5. -/
theorem success_growth_only_below_base (s : LimiterState) (now : Rat)
    (h429 : get_recent_429_count s now 300 = 0) :
    (get_adaptive_factor s < 1 →
      get_adaptive_factor (limiter_record_success s now) =
        min max_factor (get_adaptive_factor s * increase_factor)) ∧
    (1 ≤ get_adaptive_factor s →
      limiter_record_success s now = s) := by
  constructor
  · intro hf
    simp only [get_adaptive_factor] at hf ⊢
    simp [limiter_record_success, h429, get_adaptive_factor, hf]
  · intro hf
    simp [limiter_record_success, h429, not_lt.mpr hf]

/-- Witness for the amended C3 at a factor of 0.8 and an empty 429 list. -/
theorem success_growth_only_below_base_witness :
    (get_adaptive_factor ⟨none, some (0.8 : ℚ), []⟩ < 1 →
      get_adaptive_factor (limiter_record_success ⟨none, some (0.8 : ℚ), []⟩ 0) =
        min max_factor (get_adaptive_factor ⟨none, some (0.8 : ℚ), []⟩ * increase_factor)) ∧
    (1 ≤ get_adaptive_factor ⟨none, some (0.8 : ℚ), []⟩ →
      limiter_record_success ⟨none, some (0.8 : ℚ), []⟩ 0 = ⟨none, some (0.8 : ℚ), []⟩) :=
  success_growth_only_below_base ⟨none, some (0.8 : ℚ), []⟩ 0 rfl

/-- C7: one `acquire` step of the limiter (the whole check–refill–deduct
sequence is the single Lua transition `luaCheckAndConsume`, mirroring the
single Redis `EVAL` of the source).  With a live bucket the call deducts
when at least `n` tokens remain and otherwise denies with
`wait = refill_time - now`; at or past `refill_time` (or with no bucket)
the bucket is first refilled to `⌊base · f(user)⌋`, then the same
deduct-or-deny applies (a denial right after a refill waits out the new
window). -/
theorem token_bucket_step (s : LimiterState) (base : Int) (window now : Rat)
    (n : Int) (hb : 0 ≤ base) (hw : 0 < window) (hf : 0 ≤ get_adaptive_factor s) :
    (∀ b : Bucket, s.bucket = some b → now < b.refillTime →
      (n ≤ b.tokens →
        check_and_consume ⟨false, false⟩ s base window now n =
          Except.ok ((true, none),
            { s with bucket := some ⟨b.tokens - n, b.refillTime⟩ })) ∧
      (b.tokens < n →
        check_and_consume ⟨false, false⟩ s base window now n =
          Except.ok ((false, some (b.refillTime - now)), s))) ∧
    ((s.bucket = none ∨ ∃ b : Bucket, s.bucket = some b ∧ b.refillTime ≤ now) →
      (n ≤ ⌊(base : ℚ) * get_adaptive_factor s⌋ →
        check_and_consume ⟨false, false⟩ s base window now n =
          Except.ok ((true, none),
            { s with bucket := some (Bucket.mk
                (⌊(base : ℚ) * get_adaptive_factor s⌋ - n) (now + window)) })) ∧
      (⌊(base : ℚ) * get_adaptive_factor s⌋ < n →
        check_and_consume ⟨false, false⟩ s base window now n =
          Except.ok ((false, some window), s))) := by
  have hx : (0 : ℚ) ≤ (base : ℚ) * get_adaptive_factor s :=
    mul_nonneg (by exact_mod_cast hb) hf
  have hpy : pyInt ((base : ℚ) * get_adaptive_factor s) =
      ⌊(base : ℚ) * get_adaptive_factor s⌋ := if_pos hx
  constructor
  · rintro b hsb hlt
    have hnr : ¬ (now ≥ b.refillTime) := not_le.mpr hlt
    constructor
    · intro hn
      simp [check_and_consume, luaCheckAndConsume, hsb, hnr, hpy, hn, ge_iff_le]
    · intro hden
      have h1 : max (0 : ℚ) (b.refillTime - now) = b.refillTime - now :=
        max_eq_right (sub_nonneg.mpr hlt.le)
      have h2 : (0 : ℚ) < b.refillTime - now := sub_pos.mpr hlt
      simp [check_and_consume, luaCheckAndConsume, hsb, hnr, hpy,
        not_le.mpr hden, h1, h2, ge_iff_le]
      rw [← hsb]
  · intro hrefill
    have h1 : max (0 : ℚ) (now + window - now) = window := by
      rw [add_sub_cancel_left]
      exact max_eq_right hw.le
    constructor
    · intro hn
      rcases hrefill with hnone | ⟨b, hsb, hge⟩
      · simp [check_and_consume, luaCheckAndConsume, hnone, hpy, hn, ge_iff_le]
      · simp [check_and_consume, luaCheckAndConsume, hsb, ge_iff_le.mpr hge,
          hpy, hn, ge_iff_le]
    · intro hden
      rcases hrefill with hnone | ⟨b, hsb, hge⟩
      · simp [check_and_consume, luaCheckAndConsume, hnone, hpy,
          not_le.mpr hden, h1, hw, ge_iff_le]
        exact ⟨hw.le, by rw [← hnone]⟩
      · simp [check_and_consume, luaCheckAndConsume, hsb, ge_iff_le.mpr hge,
          hpy, not_le.mpr hden, h1, hw, ge_iff_le]
        exact ⟨hw.le, by rw [← hsb]⟩

/-- Witness for C7: fresh bucket for base capacity 200, window 10 s,
default factor 1.0; both the refill-and-deduct branch and the related
facts specialize at `now = 0`, `n = 1`. -/
theorem token_bucket_step_witness :
    (∀ b : Bucket, (⟨none, none, []⟩ : LimiterState).bucket = some b → 0 < b.refillTime →
      (1 ≤ b.tokens →
        check_and_consume ⟨false, false⟩ ⟨none, none, []⟩ 200 10 0 1 =
          Except.ok ((true, none),
            { (⟨none, none, []⟩ : LimiterState) with
              bucket := some ⟨b.tokens - 1, b.refillTime⟩ })) ∧
      (b.tokens < 1 →
        check_and_consume ⟨false, false⟩ ⟨none, none, []⟩ 200 10 0 1 =
          Except.ok ((false, some (b.refillTime - 0)), ⟨none, none, []⟩))) ∧
    (((⟨none, none, []⟩ : LimiterState).bucket = none ∨
        ∃ b : Bucket, (⟨none, none, []⟩ : LimiterState).bucket = some b ∧ b.refillTime ≤ 0) →
      (1 ≤ ⌊(200 : ℚ) * get_adaptive_factor ⟨none, none, []⟩⌋ →
        check_and_consume ⟨false, false⟩ ⟨none, none, []⟩ 200 10 0 1 =
          Except.ok ((true, none),
            { (⟨none, none, []⟩ : LimiterState) with
              bucket := some (Bucket.mk
                (⌊(200 : ℚ) * get_adaptive_factor ⟨none, none, []⟩⌋ - 1) (0 + 10)) })) ∧
      (⌊(200 : ℚ) * get_adaptive_factor ⟨none, none, []⟩⌋ < 1 →
        check_and_consume ⟨false, false⟩ ⟨none, none, []⟩ 200 10 0 1 =
          Except.ok ((false, some 10), ⟨none, none, []⟩))) :=
  token_bucket_step ⟨none, none, []⟩ 200 10 0 1 (by decide) (by norm_num)
    (by norm_num [get_adaptive_factor])

/-- C4: from CLOSED, recording a failure opens the breaker exactly when the
(TTL-windowed) failure counter reaches the threshold of 5; from OPEN —
with `opened_at` written at the opening instant `t_open` with TTL
`timeout`, as `record_failure` does — an arriving call moves the breaker
to HALF_OPEN precisely when at least `timeout` (60 s) has elapsed, and is
rejected with `CircuitBreakerOpenError` any earlier. -/
theorem breaker_transitions (b : BreakerState) (now t_open : Rat) :
    (get_state b now = CircuitState.CLOSED →
      (get_state (record_failure b now) now = CircuitState.OPEN ↔
        failure_threshold ≤ (readKey now (record_failure b now).failures).getD 0)) ∧
    (get_state b now = CircuitState.OPEN →
      b.openedAt = some ⟨t_open, t_open + breaker_timeout⟩ →
      ((t_open + breaker_timeout ≤ now →
          ∃ b2, call_gate b now = Except.ok b2 ∧
            get_state b2 now = CircuitState.HALF_OPEN) ∧
       (now < t_open + breaker_timeout →
          call_gate b now =
            Except.error BreakerOpenError.circuitBreakerOpenError))) := by
  constructor
  · intro hclosed
    have hlt60 : now < now + breaker_timeout := by
      norm_num [breaker_timeout]
    have hlt120 : now < now + breaker_timeout * 2 := by
      norm_num [breaker_timeout]
    simp only [record_failure]
    split_ifs with hth
    · simp [get_state, set_state, readKey, hlt120, hlt60]
      exact hth
    · simp only [get_state, readKey] at hclosed ⊢
      rw [hclosed]
      simp only [ge_iff_le, not_le, readKey] at hth
      simp [hlt60, hth.not_le]
  · intro hopen hoa
    constructor
    · intro helapsed
      have hread : readKey now b.openedAt = none := by
        simp [readKey, hoa, not_lt.mpr helapsed]
      have hreset : should_attempt_reset b now = true := by
        simp [should_attempt_reset, hopen, hread]
      refine ⟨{ set_state b now CircuitState.HALF_OPEN with successes := none },
        ?_, ?_⟩
      · simp [call_gate, hopen, hreset]
      · have h120 : now < now + breaker_timeout * 2 := by
          norm_num [breaker_timeout]
        simp [set_state, get_state, readKey, h120]
    · intro hearly
      have hread : readKey now b.openedAt = some t_open := by
        simp [readKey, hoa, hearly]
      have hreset : should_attempt_reset b now = false := by
        simp [should_attempt_reset, hopen, hread]
        linarith
      simp [call_gate, hopen, hreset]

/-- Witness for C4: a breaker with 4 live failures opens on the next
failure exactly at the threshold; a breaker opened at t = 0 rejects a call
at t = 30 and admits the HALF_OPEN reset at t = 60. -/
theorem breaker_transitions_witness :
    (get_state (record_failure ⟨none, some ⟨4, 60⟩, none, none, []⟩ 0) 0 =
        CircuitState.OPEN ↔
      failure_threshold ≤
        (readKey 0 (record_failure ⟨none, some ⟨4, 60⟩, none, none, []⟩ 0).failures).getD 0) ∧
    call_gate ⟨some ⟨CircuitState.OPEN, 120⟩, none, some ⟨0, 60⟩, none, []⟩ 30 =
      Except.error BreakerOpenError.circuitBreakerOpenError ∧
    (∃ b2, call_gate ⟨some ⟨CircuitState.OPEN, 120⟩, none, some ⟨0, 60⟩, none, []⟩ 60 =
        Except.ok b2 ∧ get_state b2 60 = CircuitState.HALF_OPEN) := by
  refine ⟨?_, ?_, ?_⟩
  · exact (breaker_transitions ⟨none, some ⟨4, 60⟩, none, none, []⟩ 0 0).1 rfl
  · exact ((breaker_transitions
        ⟨some ⟨CircuitState.OPEN, 120⟩, none, some ⟨0, 60⟩, none, []⟩ 30 0).2
        (by norm_num [get_state, readKey]) (by simp [breaker_timeout])).2
      (by norm_num [breaker_timeout])
  · exact ((breaker_transitions
        ⟨some ⟨CircuitState.OPEN, 120⟩, none, some ⟨0, 60⟩, none, []⟩ 60 0).2
        (by norm_num [get_state, readKey]) (by simp [breaker_timeout])).1
      (by norm_num [breaker_timeout])

/-- Invariant of consecutive failures at one instant, starting from a
cleared failure counter: after `j` failures the counter reads `j`, and the
breaker state key has been set to OPEN exactly from the 5th failure on. -/
theorem iterate_failures_spec (b0 : BreakerState) (now : Rat)
    (hf : b0.failures = none) :
    ∀ j : Nat,
      (iterate_failures now b0 j).failures =
        (if j = 0 then none else some ⟨(j : Int), now + breaker_timeout⟩) ∧
      (iterate_failures now b0 j).state =
        (if 5 ≤ j then some ⟨CircuitState.OPEN, now + breaker_timeout * 2⟩
         else b0.state) := by
  have hlt60 : now < now + breaker_timeout := by norm_num [breaker_timeout]
  intro j
  induction j with
  | zero => simp [iterate_failures, hf]
  | succ k ih =>
      obtain ⟨ihf, ihs⟩ := ih
      have hcount : (readKey now (iterate_failures now b0 k).failures).getD 0 =
          (k : Int) := by
        rcases Nat.eq_zero_or_pos k with hk | hk
        · subst hk; simp [ihf, readKey]
        · have hk0 : ¬ (k = 0) := by omega
          simp [ihf, hk0, readKey, hlt60]
      simp only [iterate_failures, record_failure, set_state, hcount]
      by_cases hth : (k : Int) + 1 ≥ failure_threshold
      · have h5 : 5 ≤ k + 1 := by
          simp only [failure_threshold, ge_iff_le] at hth
          omega
        rw [if_pos hth]
        refine ⟨?_, ?_⟩
        · simp only [Nat.succ_ne_zero, if_neg, Nat.cast_succ]
          simp
        · simp [h5]
      · have h5 : ¬ (5 ≤ k + 1) := by
          simp only [failure_threshold, ge_iff_le, not_le] at hth ⊢
          omega
        rw [if_neg hth]
        refine ⟨?_, ?_⟩
        · simp only [Nat.succ_ne_zero, if_neg, Nat.cast_succ]
          simp
        · rw [if_neg h5, ihs, if_neg (by omega : ¬ (5 ≤ k))]

/-- C9: recording a success deletes the failure counter in every breaker
state, so the breaker opens only on 5 failures with no intervening
success — after one success, `j` consecutive failures read a count of `j`
and a CLOSED breaker opens exactly from the 5th on. -/
theorem success_resets_failures (b : BreakerState) (now : Rat) :
    (breaker_record_success b now).failures = none ∧
    (get_state b now = CircuitState.CLOSED →
      ∀ j : Nat,
        get_state (iterate_failures now (breaker_record_success b now) j) now =
          (if 5 ≤ j then CircuitState.OPEN else CircuitState.CLOSED)) := by
  have hfail : (breaker_record_success b now).failures = none := by
    simp only [breaker_record_success]
    split
    · split <;> rfl
    · rfl
    · rfl
  refine ⟨hfail, ?_⟩
  intro hclosed j
  have hsc : get_state { b with failures := none } now = CircuitState.CLOSED :=
    hclosed
  have hstate : (breaker_record_success b now).state = b.state := by
    simp only [breaker_record_success, hsc]
  obtain ⟨hjf, hjs⟩ := iterate_failures_spec (breaker_record_success b now) now hfail j
  by_cases h5 : 5 ≤ j
  · rw [get_state, hjs, if_pos h5]
    have h120 : now < now + breaker_timeout * 2 := by norm_num [breaker_timeout]
    simp [readKey, h120, h5]
  · rw [get_state, hjs, if_neg h5, if_neg h5, hstate]
    exact hclosed

/-- Witness for C9: from a fresh CLOSED breaker, a success then failures:
the 4th leaves the breaker CLOSED, the 5th opens it. -/
theorem success_resets_failures_witness :
    (breaker_record_success ⟨none, some ⟨4, 60⟩, none, none, []⟩ 0).failures = none ∧
    get_state (iterate_failures 0
        (breaker_record_success ⟨none, some ⟨4, 60⟩, none, none, []⟩ 0) 4) 0 =
      (if 5 ≤ 4 then CircuitState.OPEN else CircuitState.CLOSED) ∧
    get_state (iterate_failures 0
        (breaker_record_success ⟨none, some ⟨4, 60⟩, none, none, []⟩ 0) 5) 0 =
      (if 5 ≤ 5 then CircuitState.OPEN else CircuitState.CLOSED) :=
  ⟨(success_resets_failures ⟨none, some ⟨4, 60⟩, none, none, []⟩ 0).1,
   (success_resets_failures ⟨none, some ⟨4, 60⟩, none, none, []⟩ 0).2 rfl 4,
   (success_resets_failures ⟨none, some ⟨4, 60⟩, none, none, []⟩ 0).2 rfl 5⟩

/-- An order item whose key is not `p` leaves row `p` untouched in the
create direction. -/
theorem create_step_apply_ne (inv : Inv) (it : OrderItem) (p : Nat)
    (h : orderItemKey it ≠ some p) : create_step inv it p = inv p := by
  cases hk : orderItemKey it with
  | none => simp [create_step, hk]
  | some pid =>
      have hne : p ≠ pid := fun he => h (he ▸ hk ▸ rfl)
      cases hinv : inv pid with
      | none => simp [create_step, hk, hinv]
      | some q => simp [create_step, hk, hinv, Function.update_noteq hne]

/-- An order item whose key is `p` updates row `p` by
`quantity := max(0, quantity - item_qty)`. -/
theorem create_step_apply_key (inv : Inv) (it : OrderItem) (p : Nat)
    (hk : orderItemKey it = some p) :
    create_step inv it p = (inv p).map (fun q => max 0 (q - it.quantity)) := by
  cases hinv : inv p with
  | none => simp [create_step, hk, hinv]
  | some q => simp [create_step, hk, hinv, Function.update_same]

/-- An order item whose key is not `p` leaves row `p` untouched in the
restore direction. -/
theorem restore_step_apply_ne (inv : Inv) (it : OrderItem) (p : Nat)
    (h : orderItemKey it ≠ some p) : restore_step inv it p = inv p := by
  cases hk : orderItemKey it with
  | none => simp [restore_step, hk]
  | some pid =>
      have hne : p ≠ pid := fun he => h (he ▸ hk ▸ rfl)
      cases hinv : inv pid with
      | none => simp [restore_step, hk, hinv]
      | some q => simp [restore_step, hk, hinv, Function.update_noteq hne]

/-- An order item whose key is `p` updates row `p` by
`quantity := quantity + item_qty`. -/
theorem restore_step_apply_key (inv : Inv) (it : OrderItem) (p : Nat)
    (hk : orderItemKey it = some p) :
    restore_step inv it p = (inv p).map (fun q => q + it.quantity) := by
  cases hinv : inv p with
  | none => simp [restore_step, hk, hinv]
  | some q => simp [restore_step, hk, hinv, Function.update_same]

/-- A create fold leaves rows untouched whose key no item carries. -/
theorem fold_create_untouched :
    ∀ (items : List OrderItem) (inv : Inv) (p : Nat),
      (∀ it ∈ items, orderItemKey it ≠ some p) →
      items.foldl create_step inv p = inv p := by
  intro items
  induction items with
  | nil => intro inv p _; rfl
  | cons it rest ih =>
      intro inv p h
      rw [List.foldl_cons, ih _ p (fun x hx => h x (List.mem_cons_of_mem _ hx))]
      exact create_step_apply_ne inv it p (h it (List.mem_cons_self _ _))

/-- A restore fold leaves rows untouched whose key no item carries. -/
theorem fold_restore_untouched :
    ∀ (items : List OrderItem) (inv : Inv) (p : Nat),
      (∀ it ∈ items, orderItemKey it ≠ some p) →
      items.foldl restore_step inv p = inv p := by
  intro items
  induction items with
  | nil => intro inv p _; rfl
  | cons it rest ih =>
      intro inv p h
      rw [List.foldl_cons, ih _ p (fun x hx => h x (List.mem_cons_of_mem _ hx))]
      exact restore_step_apply_ne inv it p (h it (List.mem_cons_self _ _))

/-- With pairwise-distinct keys, the create fold acts on the row of item
`it` exactly once: `quantity := max(0, quantity - item_qty)`. -/
theorem fold_create_touched :
    ∀ (items : List OrderItem) (inv : Inv) (it : OrderItem) (p : Nat),
      (items.filterMap orderItemKey).Nodup →
      it ∈ items → orderItemKey it = some p →
      items.foldl create_step inv p =
        (inv p).map (fun q => max 0 (q - it.quantity)) := by
  intro items
  induction items with
  | nil => intro inv it p _ hmem _; exact absurd hmem (List.not_mem_nil _)
  | cons it0 rest ih =>
      intro inv it p hnd hmem hkey
      rw [List.foldl_cons]
      rcases List.mem_cons.mp hmem with he | hr
      · subst he
        have hpnot : ∀ x ∈ rest, orderItemKey x ≠ some p := by
          intro x hx hkx
          rw [List.filterMap_cons, hkey] at hnd
          exact (List.nodup_cons.mp hnd).1 (List.mem_filterMap.mpr ⟨x, hx, hkx⟩)
        rw [fold_create_untouched rest _ p hpnot]
        exact create_step_apply_key inv it p hkey
      · have hk0 : orderItemKey it0 ≠ some p := by
          intro hk0
          rw [List.filterMap_cons, hk0] at hnd
          exact (List.nodup_cons.mp hnd).1
            (List.mem_filterMap.mpr ⟨it, hr, hkey⟩)
        have hnd' : (rest.filterMap orderItemKey).Nodup := by
          rw [List.filterMap_cons] at hnd
          cases hcase : orderItemKey it0 with
          | none => rw [hcase] at hnd; exact hnd
          | some k => rw [hcase] at hnd; exact (List.nodup_cons.mp hnd).2
        rw [ih _ it p hnd' hr hkey, create_step_apply_ne inv it0 p hk0]

/-- With pairwise-distinct keys, the restore fold acts on the row of item
`it` exactly once: `quantity := quantity + item_qty`. -/
theorem fold_restore_touched :
    ∀ (items : List OrderItem) (inv : Inv) (it : OrderItem) (p : Nat),
      (items.filterMap orderItemKey).Nodup →
      it ∈ items → orderItemKey it = some p →
      items.foldl restore_step inv p =
        (inv p).map (fun q => q + it.quantity) := by
  intro items
  induction items with
  | nil => intro inv it p _ hmem _; exact absurd hmem (List.not_mem_nil _)
  | cons it0 rest ih =>
      intro inv it p hnd hmem hkey
      rw [List.foldl_cons]
      rcases List.mem_cons.mp hmem with he | hr
      · subst he
        have hpnot : ∀ x ∈ rest, orderItemKey x ≠ some p := by
          intro x hx hkx
          rw [List.filterMap_cons, hkey] at hnd
          exact (List.nodup_cons.mp hnd).1 (List.mem_filterMap.mpr ⟨x, hx, hkx⟩)
        rw [fold_restore_untouched rest _ p hpnot]
        exact restore_step_apply_key inv it p hkey
      · have hk0 : orderItemKey it0 ≠ some p := by
          intro hk0
          rw [List.filterMap_cons, hk0] at hnd
          exact (List.nodup_cons.mp hnd).1
            (List.mem_filterMap.mpr ⟨it, hr, hkey⟩)
        have hnd' : (rest.filterMap orderItemKey).Nodup := by
          rw [List.filterMap_cons] at hnd
          cases hcase : orderItemKey it0 with
          | none => rw [hcase] at hnd; exact hnd
          | some k => rw [hcase] at hnd; exact (List.nodup_cons.mp hnd).2
        rw [ih _ it p hnd' hr hkey, restore_step_apply_ne inv it0 p hk0]

/-- C5 counterexample: an item with quantity 1 sold twice in one order.
`order.create` clamps the row at 0 (`max(0, 1 - 2)`); `order.destroy`
restores `+2`, leaving the row at 2 instead of the original 1. -/
theorem webhook_reversibility_cex :
    handle_order_destroy
        (handle_order_create (fun p => if p = 1 then some 1 else none)
          ⟨"paid", [⟨some 1, 2⟩]⟩)
        ⟨"paid", [⟨some 1, 2⟩]⟩ 1 = some 2 ∧
    (fun p => if p = 1 then some (1 : Int) else none) 1 = some 1 ∧
    (2 : Int) ≠ 1 := by
  refine ⟨?_, rfl, by decide⟩
  have h1 : orderItemKey ⟨some 1, 2⟩ = some 1 := rfl
  rw [handle_order_destroy, handle_order_create, if_pos rfl,
    restore_order_quantities]
  simp only [List.foldl_cons, List.foldl_nil]
  rw [restore_step_apply_key _ _ _ h1, create_step_apply_key _ _ _ h1]
  norm_num

/-- C5 amended: `order.create` (state `paid`) followed by `order.destroy`
with the same payload returns every affected row to its original quantity,
provided no clamping occurs — each ordered quantity is at most the row's
current quantity (and the order touches each product at most once). -/
theorem webhook_reversibility (inv : Inv) (order : Order)
    (hpaid : order.state = "paid")
    (hnd : (order.order_items.filterMap orderItemKey).Nodup)
    (hq : ∀ it ∈ order.order_items, ∀ p, orderItemKey it = some p →
      ∀ q, inv p = some q → it.quantity ≤ q) :
    ∀ p, handle_order_destroy (handle_order_create inv order) order p = inv p := by
  intro p
  rw [handle_order_create, if_pos hpaid, handle_order_destroy,
    restore_order_quantities]
  by_cases hp : ∃ it ∈ order.order_items, orderItemKey it = some p
  · obtain ⟨it, hmem, hkey⟩ := hp
    rw [fold_restore_touched order.order_items _ it p hnd hmem hkey,
      fold_create_touched order.order_items inv it p hnd hmem hkey]
    cases hinv : inv p with
    | none => rfl
    | some q =>
        have hle : it.quantity ≤ q := hq it hmem p hkey q hinv
        simp [max_eq_right (sub_nonneg.mpr hle)]
  · push_neg at hp
    rw [fold_restore_untouched _ _ p (fun x hx => hp x hx),
      fold_create_untouched _ _ p (fun x hx => hp x hx)]

/-- Witness for the amended C5: two rows, an order selling 2 of product 1
and 1 of product 2, both within stock; the round trip restores row 1. -/
theorem webhook_reversibility_witness :
    handle_order_destroy
        (handle_order_create
          (fun p => if p = 1 then some 5 else if p = 2 then some 3 else none)
          ⟨"paid", [⟨some 1, 2⟩, ⟨some 2, 1⟩]⟩)
        ⟨"paid", [⟨some 1, 2⟩, ⟨some 2, 1⟩]⟩ 1 =
      (fun p => if p = 1 then some (5 : Int) else if p = 2 then some 3 else none) 1 :=
  webhook_reversibility
    (fun p => if p = 1 then some 5 else if p = 2 then some 3 else none)
    ⟨"paid", [⟨some 1, 2⟩, ⟨some 2, 1⟩]⟩ rfl (by decide)
    (by decide) 1

/-- Partition of a list by a Bool predicate: the two filtered halves
account for every element. -/
theorem length_filter_not_add_length_filter {α : Type} (p : α → Bool)
    (l : List α) :
    (l.filter (fun a => !(p a))).length + (l.filter p).length = l.length := by
  induction l with
  | nil => rfl
  | cons a t ih =>
      by_cases h : p a = true <;>
        simp [List.filter_cons, h, ← ih] <;> omega

/-- C6: replaying the same chunk against the key set produced by the first
run creates nothing (every probe key now exists) and counts every product
from the first run — created or updated alike — as an update. -/
theorem bulk_sync_idempotent (db : List (Nat × Nat))
    (products : List ExportProduct) (bmap : Nat → Option (Nat × String)) :
    (process_products_chunk
        (process_products_chunk db products bmap).2 products bmap).1.created = 0 ∧
    (process_products_chunk
        (process_products_chunk db products bmap).2 products bmap).1.updated =
      (process_products_chunk db products bmap).1.created +
        (process_products_chunk db products bmap).1.updated := by
  simp only [process_products_chunk]
  split_ifs with h1 h2
  · exact ⟨rfl, rfl⟩
  · exact ⟨rfl, rfl⟩
  · dsimp only
    have hall : ∀ p ∈ products_to_process products bmap,
        productKey p ∈ db ++ List.map productKey
          ((products_to_process products bmap).filter
            (fun p => !decide (productKey p ∈ db))) := by
      intro p hp
      by_cases hdb : productKey p ∈ db
      · exact List.mem_append_left _ hdb
      · refine List.mem_append_right _ ?_
        exact List.mem_map_of_mem productKey
          (List.mem_filter.mpr ⟨hp, by simp [hdb]⟩)
    constructor
    · rw [List.length_eq_zero]
      refine List.filter_eq_nil_iff.mpr ?_
      intro p hp
      simp only [Bool.not_eq_true', decide_eq_false_iff_not, Decidable.not_not]
      exact hall p hp
    · have hfull : (products_to_process products bmap).filter
          (fun p => decide (productKey p ∈ db ++ List.map productKey
            ((products_to_process products bmap).filter
              (fun p => !decide (productKey p ∈ db))))) =
            products_to_process products bmap :=
        List.filter_eq_self.mpr (fun p hp => by
          simp only [decide_eq_true_eq]
          exact hall p hp)
      rw [hfull]
      exact (length_filter_not_add_length_filter
        (fun p => decide (productKey p ∈ db)) (products_to_process products bmap)).symm

end BrxSync
